import Mathlib

/- A shallow embedding of the raycasting engine of iglooe/raycasting:
   src/index.ts together with the compiled variant embedded in
   src/readme.md.  Real numbers stand in for JavaScript doubles; the
   unbounded castRay while-loop is given an explicit fuel parameter. -/

open scoped Classical

noncomputable section

/-- EPSILON from index.ts line 2: the small bias avoiding boundary stalls. -/
def EPSILON : ℝ := 1 / 1000000

/-- NEAR_CLIPPING_PLANE from index.ts line 3. -/
def NEAR_CLIPPING_PLANE : ℝ := 1

/-- FAR_CLIPPING_PLANE from index.ts line 4. -/
def FAR_CLIPPING_PLANE : ℝ := 10

/-- PLAYER_SPEED from the compiled source in readme.md. -/
def PLAYER_SPEED : ℝ := 2

/-- The Vector2D value class of index.ts. -/
@[ext]
structure Vector2D where
  x : ℝ
  y : ℝ

namespace Vector2D

/-- Vector2D.zero. -/
def zero : Vector2D := ⟨0, 0⟩

/-- Vector2D.fromAngle. -/
def fromAngle (angle : ℝ) : Vector2D := ⟨Real.cos angle, Real.sin angle⟩

/-- Vector2D.prototype.add. -/
def add (a b : Vector2D) : Vector2D := ⟨a.x + b.x, a.y + b.y⟩

/-- Vector2D.prototype.subtract. -/
def subtract (a b : Vector2D) : Vector2D := ⟨a.x - b.x, a.y - b.y⟩

/-- Vector2D.prototype.multiply. -/
def multiply (a b : Vector2D) : Vector2D := ⟨a.x * b.x, a.y * b.y⟩

/-- Vector2D.prototype.length. -/
def length (a : Vector2D) : ℝ := Real.sqrt (a.x * a.x + a.y * a.y)

/-- Vector2D.prototype.sqrLength (readme.md variant). -/
def sqrLength (a : Vector2D) : ℝ := a.x * a.x + a.y * a.y

/-- Vector2D.prototype.scale. -/
def scale (a : Vector2D) (value : ℝ) : Vector2D := ⟨a.x * value, a.y * value⟩

/-- Vector2D.prototype.distanceTo (index.ts): Euclidean distance. -/
def distanceTo (a b : Vector2D) : ℝ := (b.subtract a).length

/-- Vector2D.prototype.sqrDistanceTo (readme.md variant). -/
def sqrDistanceTo (a b : Vector2D) : ℝ := (b.subtract a).sqrLength

/-- Vector2D.prototype.dot. -/
def dot (a b : Vector2D) : ℝ := a.x * b.x + a.y * b.y

/-- Vector2D.prototype.lerp. -/
def lerp (a b : Vector2D) (t : ℝ) : Vector2D := ((b.subtract a).scale t).add a

end Vector2D

/-- Math.sign, as used by snapToNeighbor and hittingCell. -/
def jsSign (x : ℝ) : ℝ := if 0 < x then 1 else if x < 0 then -1 else 0

/-- snapToNeighbor from index.ts lines 109-113. -/
def snapToNeighbor (x dx : ℝ) : ℝ :=
  if 0 < dx then (⌈x + jsSign dx * EPSILON⌉ : ℤ)
  else if dx < 0 then (⌊x + jsSign dx * EPSILON⌋ : ℤ)
  else x

/-- hittingCell from index.ts lines 115-121. -/
def hittingCell (p1 p2 : Vector2D) : Vector2D :=
  ⟨((⌊p2.x + jsSign ((p2.subtract p1).x) * EPSILON⌋ : ℤ) : ℝ),
   ((⌊p2.y + jsSign ((p2.subtract p1).y) * EPSILON⌋ : ℤ) : ℝ)⟩

/-- rayStep from index.ts lines 124-153: candidates are compared with
    distanceTo, the plain Euclidean distance. -/
def rayStep (p1 p2 : Vector2D) : Vector2D :=
  let delta := p2.subtract p1
  if delta.x ≠ 0 then
    let k := delta.y / delta.x
    let c := p1.y - k * p1.x
    let x3 := snapToNeighbor p2.x delta.x
    let p3 := Vector2D.mk x3 (x3 * k + c)
    if k ≠ 0 then
      let y3 := snapToNeighbor p2.y delta.y
      let p3temp := Vector2D.mk ((y3 - c) / k) y3
      if p2.distanceTo p3temp < p2.distanceTo p3 then p3temp else p3
    else p3
  else
    Vector2D.mk p2.x (snapToNeighbor p2.y delta.y)

/-- rayStep as it appears in the compiled source in readme.md: identical
    except that the candidates are compared with sqrDistanceTo. -/
def rayStepSqr (p1 p2 : Vector2D) : Vector2D :=
  let delta := p2.subtract p1
  if delta.x ≠ 0 then
    let k := delta.y / delta.x
    let c := p1.y - k * p1.x
    let x3 := snapToNeighbor p2.x delta.x
    let p3 := Vector2D.mk x3 (x3 * k + c)
    if k ≠ 0 then
      let y3 := snapToNeighbor p2.y delta.y
      let p3temp := Vector2D.mk ((y3 - c) / k) y3
      if p2.sqrDistanceTo p3temp < p2.sqrDistanceTo p3 then p3temp else p3
    else p3
  else
    Vector2D.mk p2.x (snapToNeighbor p2.y delta.y)

/-- A scene cell: some color string, or null (none). -/
abbrev Cell := Option String

/-- The scene: an array of rows of cells, possibly ragged. -/
abbrev Scene := List (List Cell)

/-- JavaScript array indexing: a negative or too-large index yields
    undefined, modelled as none. -/
def jsIndex {X : Type} (l : List X) (i : ℤ) : Option X :=
  if 0 ≤ i then l.get? i.toNat else none

/-- The value of scene[c.y][c.x] as read by castRay: some (some color) for
    a wall, some none for null, none for undefined (column out of range of
    its row).  castRay only evaluates it with integral in-bounds c.y. -/
def sceneCell (scene : Scene) (c : Vector2D) : Option Cell :=
  match jsIndex scene ⌊c.y⌋ with
  | none => none
  | some row => jsIndex row ⌊c.x⌋

/-- Number.MIN_VALUE, the smallest positive double, used as the seed of the
    row-length fold in sceneSize. -/
def numberMinValue : ℝ := 1 / 2 ^ 1074

/-- sceneSize from index.ts lines 182-189. -/
def sceneSize (scene : Scene) : Vector2D :=
  ⟨scene.foldl (fun acc row => max acc ((row.length : ℕ) : ℝ)) numberMinValue,
   ((scene.length : ℕ) : ℝ)⟩

/-- insideScene from index.ts lines 158-161. -/
def insideScene (scene : Scene) (p : Vector2D) : Prop :=
  0 ≤ p.x ∧ p.x < (sceneSize scene).x ∧ 0 ≤ p.y ∧ p.y < (sceneSize scene).y

/-- The castRay while-loop of index.ts lines 164-180 with explicit fuel;
    exhausted fuel returns the current p2, mirroring an interrupted loop.
    The wall test scene[c.y][c.x] !== null is sceneCell scene c ≠ some none:
    an undefined read (past a short row) also differs from null. -/
def castRayAux (scene : Scene) (start : Vector2D) : ℕ → Vector2D → Vector2D → Vector2D
  | 0, _, p2 => p2
  | n + 1, p1, p2 =>
    if start.distanceTo p1 < FAR_CLIPPING_PLANE then
      if insideScene scene (hittingCell p1 p2) ∧ sceneCell scene (hittingCell p1 p2) ≠ some none then
        p2
      else castRayAux scene start n p2 (rayStep p1 p2)
    else p2

/-- castRay: start is the saved initial p1 of the loop condition. -/
def castRay (scene : Scene) (p1 p2 : Vector2D) (fuel : ℕ) : Vector2D :=
  castRayAux scene p1 fuel p1 p2

/-- The trace of the cells whose occupancy castRay evaluates: by
    &&-short-circuiting, scene[c.y][c.x] is read exactly when insideScene
    holds of c = hittingCell p1 p2. -/
def castRayTests (scene : Scene) (start : Vector2D) : ℕ → Vector2D → Vector2D → List (ℤ × ℤ)
  | 0, _, _ => []
  | n + 1, p1, p2 =>
    if start.distanceTo p1 < FAR_CLIPPING_PLANE then
      if insideScene scene (hittingCell p1 p2) then
        if sceneCell scene (hittingCell p1 p2) ≠ some none then
          [(⌊(hittingCell p1 p2).x⌋, ⌊(hittingCell p1 p2).y⌋)]
        else
          (⌊(hittingCell p1 p2).x⌋, ⌊(hittingCell p1 p2).y⌋) ::
            castRayTests scene start n p2 (rayStep p1 p2)
      else castRayTests scene start n p2 (rayStep p1 p2)
    else []

/-- The logical width of a scene: the maximum row length (the spec's
    definition; sceneSize computes the same fold over the reals, seeded
    with Number.MIN_VALUE instead of 0). -/
def logicalWidth (scene : Scene) : ℕ :=
  scene.foldl (fun acc row => max acc row.length) 0

/-- The Color value class of the compiled source in readme.md. -/
structure Color where
  r : ℝ
  g : ℝ
  b : ℝ
  a : ℝ

/-- Color.prototype.brightness from readme.md: r, g and b are scaled by
    factor while a is passed through. -/
def Color.brightness (c : Color) (factor : ℝ) : Color :=
  ⟨factor * c.r, factor * c.g, factor * c.b, c.a⟩

/-- The Player class: position and direction. -/
structure Player where
  position : Vector2D
  direction : ℝ

/-- One invocation of the frame callback of readme.md (motion integration
    only): deltaTime is derived from the timestamps, velocity accumulates
    the forward and backward intents using the pre-update direction, the
    angular velocity accumulates the turn intents, then direction and
    position are advanced. -/
def frame (timestamp prevTimestamp : ℝ)
    (movingForward movingBackward turningLeft turningRight : Bool)
    (player : Player) : Player :=
  let deltaTime := (timestamp - prevTimestamp) / 1000
  let v0 := Vector2D.zero
  let v1 := if movingForward then v0.add ((Vector2D.fromAngle player.direction).scale PLAYER_SPEED) else v0
  let v2 := if movingBackward then v1.subtract ((Vector2D.fromAngle player.direction).scale PLAYER_SPEED) else v1
  let w0 : ℝ := 0
  let w1 := if turningLeft then w0 - Real.pi * 0.65 else w0
  let w2 := if turningRight then w1 + Real.pi * 0.65 else w1
  { direction := player.direction + w2 * deltaTime,
    position := player.position.add (v2.scale deltaTime) }

/-- The scene defined at startup in index.ts lines 347-355. -/
def scene1 : Scene :=
  [[none, none, some "cyan", some "purple", none, none, none, none],
   [none, none, none, some "yellow", none, none, none, none],
   [none, some "red", some "green", some "blue", none, none, none, none],
   [none, none, none, none, none, none, none, none],
   [none, none, none, none, none, none, none, none],
   [none, none, none, none, none, none, none, none],
   [none, none, none, none, none, none, none, none]]

/-- The player defined at startup in index.ts lines 358-361. -/
def player1 : Player :=
  ⟨(sceneSize scene1).multiply ⟨0.63, 0.63⟩, Real.pi * 1.25⟩

/-- The point one near-clip length along the exact view direction from the
    player: the centre of the near-plane segment, the target of the middle
    screen column. -/
def target1 : Vector2D :=
  player1.position.add ((Vector2D.fromAngle player1.direction).scale NEAR_CLIPPING_PLANE)

end

noncomputable section

/-! Helper lemmas shared by several claims. -/

theorem distanceTo_sq (a b : Vector2D) :
    a.distanceTo b = Real.sqrt (a.sqrDistanceTo b) := rfl

theorem sqrDistanceTo_nonneg (a b : Vector2D) : 0 ≤ a.sqrDistanceTo b := by
  simp only [Vector2D.sqrDistanceTo, Vector2D.sqrLength, Vector2D.subtract]
  nlinarith [mul_self_nonneg (b.x - a.x), mul_self_nonneg (b.y - a.y)]

theorem distanceTo_lt_distanceTo_iff (a b c : Vector2D) :
    a.distanceTo b < a.distanceTo c ↔ a.sqrDistanceTo b < a.sqrDistanceTo c := by
  rw [distanceTo_sq, distanceTo_sq]
  exact Real.sqrt_lt_sqrt_iff (sqrDistanceTo_nonneg a b)

theorem distanceTo_lt_iff (a b : Vector2D) (c : ℝ) (hc : 0 < c) :
    a.distanceTo b < c ↔ a.sqrDistanceTo b < c ^ 2 := by
  rw [distanceTo_sq]
  exact Real.sqrt_lt' hc

theorem castRayAux_succ (scene : Scene) (start : Vector2D) (n : ℕ) (p1 p2 : Vector2D) :
    castRayAux scene start (n + 1) p1 p2 =
      if start.distanceTo p1 < FAR_CLIPPING_PLANE then
        if insideScene scene (hittingCell p1 p2) ∧ sceneCell scene (hittingCell p1 p2) ≠ some none then
          p2
        else castRayAux scene start n p2 (rayStep p1 p2)
      else p2 := rfl

theorem castRayTests_succ (scene : Scene) (start : Vector2D) (n : ℕ) (p1 p2 : Vector2D) :
    castRayTests scene start (n + 1) p1 p2 =
      if start.distanceTo p1 < FAR_CLIPPING_PLANE then
        if insideScene scene (hittingCell p1 p2) then
          if sceneCell scene (hittingCell p1 p2) ≠ some none then
            [(⌊(hittingCell p1 p2).x⌋, ⌊(hittingCell p1 p2).y⌋)]
          else
            (⌊(hittingCell p1 p2).x⌋, ⌊(hittingCell p1 p2).y⌋) ::
              castRayTests scene start n p2 (rayStep p1 p2)
        else castRayTests scene start n p2 (rayStep p1 p2)
      else [] := rfl

theorem snapToNeighbor_int (x dx : ℝ) (h : dx ≠ 0) :
    ∃ n : ℤ, snapToNeighbor x dx = n := by
  rw [snapToNeighbor]
  rcases lt_or_gt_of_ne h with hneg | hpos
  · rw [if_neg (by linarith), if_pos hneg]
    exact ⟨_, rfl⟩
  · rw [if_pos hpos]
    exact ⟨_, rfl⟩

theorem EPSILON_pos : (0 : ℝ) < EPSILON := by
  rw [EPSILON]
  norm_num

theorem snapToNeighbor_gt (x dx : ℝ) (h : 0 < dx) : x < snapToNeighbor x dx := by
  rw [snapToNeighbor, if_pos h, jsSign, if_pos h]
  have hle : x + 1 * EPSILON ≤ (⌈x + 1 * EPSILON⌉ : ℝ) := Int.le_ceil _
  have he := EPSILON_pos
  linarith

theorem snapToNeighbor_lt (x dx : ℝ) (h : dx < 0) : snapToNeighbor x dx < x := by
  rw [snapToNeighbor, if_neg (by linarith), if_pos h, jsSign, if_neg (by linarith), if_pos h]
  have hle : (⌊x + -1 * EPSILON⌋ : ℝ) ≤ x + -1 * EPSILON := Int.floor_le _
  have he := EPSILON_pos
  linarith

theorem snapToNeighbor_ne (x dx : ℝ) (h : dx ≠ 0) : snapToNeighbor x dx ≠ x := by
  rcases lt_or_gt_of_ne h with hneg | hpos
  · exact ne_of_lt (snapToNeighbor_lt x dx hneg)
  · exact (ne_of_lt (snapToNeighbor_gt x dx hpos)).symm

/-- C9: for every pair of points, the index.ts rayStep (comparing plain
    Euclidean distances) and the readme.md rayStep (comparing squared
    distances) return the same next crossing point. -/
theorem claim9_theorem (p1 p2 : Vector2D) : rayStep p1 p2 = rayStepSqr p1 p2 := by
  rw [rayStep, rayStepSqr]
  simp only [distanceTo_lt_distanceTo_iff]

/-- C2 counterexample: for p1 = (0,0), p2 = (1/2,1/2) the delta is nonzero,
    yet rayStep returns (1,1), which differs from p2 in BOTH coordinates:
    the result does not differ from p2 in exactly one coordinate. -/
theorem claim2_counterexample :
    (Vector2D.mk (1/2) (1/2)).subtract ⟨0, 0⟩ ≠ ⟨0, 0⟩ ∧
    rayStep ⟨0, 0⟩ ⟨1/2, 1/2⟩ = ⟨1, 1⟩ ∧
    (rayStep ⟨0, 0⟩ ⟨1/2, 1/2⟩).x ≠ (1/2 : ℝ) ∧
    (rayStep ⟨0, 0⟩ ⟨1/2, 1/2⟩).y ≠ (1/2 : ℝ) := by
  have hstep : rayStep ⟨0, 0⟩ ⟨1/2, 1/2⟩ = ⟨1, 1⟩ := by
    rw [rayStep]
    simp only [Vector2D.subtract]
    norm_num [snapToNeighbor, jsSign, EPSILON, Int.ceil_eq_iff]
  refine ⟨?_, hstep, ?_, ?_⟩
  · simp only [Vector2D.subtract, ne_eq, Vector2D.mk.injEq]
    norm_num
  · rw [hstep]; norm_num
  · rw [hstep]; norm_num

/-- C2 as amended: for p1, p2 with delta = p2 - p1 nonzero, rayStep never
    returns p2 (no stall), and at least one coordinate of the result lands
    exactly on an integer while differing from the corresponding coordinate
    of p2 (in general the other coordinate moves as well, so "exactly one"
    does not hold). -/
theorem claim2_theorem (p1 p2 : Vector2D) (h : p2.subtract p1 ≠ ⟨0, 0⟩) :
    rayStep p1 p2 ≠ p2 ∧
    ∃ n : ℤ,
      ((rayStep p1 p2).x = n ∧ (rayStep p1 p2).x ≠ p2.x) ∨
      ((rayStep p1 p2).y = n ∧ (rayStep p1 p2).y ≠ p2.y) := by
  have hd : p2.x - p1.x ≠ 0 ∨ p2.y - p1.y ≠ 0 := by
    by_contra hc
    push_neg at hc
    apply h
    ext
    · simp [Vector2D.subtract, hc.1]
    · simp [Vector2D.subtract, hc.2]
  suffices hs : ∃ n : ℤ,
      ((rayStep p1 p2).x = n ∧ (rayStep p1 p2).x ≠ p2.x) ∨
      ((rayStep p1 p2).y = n ∧ (rayStep p1 p2).y ≠ p2.y) by
    refine ⟨?_, hs⟩
    obtain ⟨n, hn⟩ := hs
    intro he
    rcases hn with ⟨_, hx⟩ | ⟨_, hy⟩
    · exact hx (by rw [he])
    · exact hy (by rw [he])
  rw [rayStep]
  simp only [Vector2D.subtract]
  split_ifs with h1 h2 h3
  · -- candidate B chosen: its y coordinate is snapped
    have hdy : p2.y - p1.y ≠ 0 := by
      intro h0
      apply h2
      rw [h0, zero_div]
    obtain ⟨n, hn⟩ := snapToNeighbor_int p2.y (p2.y - p1.y) hdy
    exact ⟨n, Or.inr ⟨hn, snapToNeighbor_ne p2.y (p2.y - p1.y) hdy⟩⟩
  · -- candidate A kept: its x coordinate is snapped
    obtain ⟨n, hn⟩ := snapToNeighbor_int p2.x (p2.x - p1.x) h1
    exact ⟨n, Or.inl ⟨hn, snapToNeighbor_ne p2.x (p2.x - p1.x) h1⟩⟩
  · -- k = 0: candidate A, x coordinate snapped
    obtain ⟨n, hn⟩ := snapToNeighbor_int p2.x (p2.x - p1.x) h1
    exact ⟨n, Or.inl ⟨hn, snapToNeighbor_ne p2.x (p2.x - p1.x) h1⟩⟩
  · -- vertical ray: y coordinate snapped
    have hdy : p2.y - p1.y ≠ 0 := by
      rcases hd with hx | hy
      · exact absurd hx h1
      · exact hy
    obtain ⟨n, hn⟩ := snapToNeighbor_int p2.y (p2.y - p1.y) hdy
    exact ⟨n, Or.inr ⟨hn, snapToNeighbor_ne p2.y (p2.y - p1.y) hdy⟩⟩

/-- C2 witness: the amended claim applied at p1 = (0,0), p2 = (1/2,1/2). -/
theorem claim2_witness :
    (Vector2D.mk (1/2) (1/2)).subtract ⟨0, 0⟩ ≠ ⟨0, 0⟩ ∧
    (rayStep ⟨0, 0⟩ ⟨1/2, 1/2⟩ ≠ ⟨1/2, 1/2⟩ ∧
      ∃ n : ℤ,
        ((rayStep ⟨0, 0⟩ ⟨1/2, 1/2⟩).x = n ∧ (rayStep ⟨0, 0⟩ ⟨1/2, 1/2⟩).x ≠ (Vector2D.mk (1/2) (1/2)).x) ∨
        ((rayStep ⟨0, 0⟩ ⟨1/2, 1/2⟩).y = n ∧ (rayStep ⟨0, 0⟩ ⟨1/2, 1/2⟩).y ≠ (Vector2D.mk (1/2) (1/2)).y)) :=
  ⟨by simp only [Vector2D.subtract, ne_eq, Vector2D.mk.injEq]; norm_num,
   claim2_theorem ⟨0, 0⟩ ⟨1/2, 1/2⟩
     (by simp only [Vector2D.subtract, ne_eq, Vector2D.mk.injEq]; norm_num)⟩

/-- C10: the point returned by rayStep lies on the infinite line through
    p1 and p2: with delta.x nonzero it satisfies y = k x + c for the slope
    k = delta.y / delta.x and intercept c = p1.y - k p1.x, and in the
    vertical case its x coordinate equals p2.x. -/
theorem claim10_theorem (p1 p2 : Vector2D) (h : p2.subtract p1 ≠ ⟨0, 0⟩) :
    ((p2.subtract p1).x ≠ 0 →
      (rayStep p1 p2).y =
        ((p2.subtract p1).y / (p2.subtract p1).x) * (rayStep p1 p2).x +
          (p1.y - ((p2.subtract p1).y / (p2.subtract p1).x) * p1.x)) ∧
    ((p2.subtract p1).x = 0 → (rayStep p1 p2).x = p2.x) := by
  simp only [Vector2D.subtract]
  rw [rayStep]
  simp only [Vector2D.subtract]
  constructor
  · intro hdx
    split_ifs with h1 h2
    · -- candidate B: x was derived from y through the line equation
      have hdy : p2.y - p1.y ≠ 0 := by
        intro h0
        apply h1
        rw [h0, zero_div]
      show snapToNeighbor p2.y (p2.y - p1.y) =
        (p2.y - p1.y) / (p2.x - p1.x) *
          ((snapToNeighbor p2.y (p2.y - p1.y) - (p1.y - (p2.y - p1.y) / (p2.x - p1.x) * p1.x)) /
            ((p2.y - p1.y) / (p2.x - p1.x))) +
          (p1.y - (p2.y - p1.y) / (p2.x - p1.x) * p1.x)
      field_simp
      ring
    · -- candidate A: y was derived from x through the line equation
      show snapToNeighbor p2.x (p2.x - p1.x) * ((p2.y - p1.y) / (p2.x - p1.x)) +
          (p1.y - (p2.y - p1.y) / (p2.x - p1.x) * p1.x) =
        (p2.y - p1.y) / (p2.x - p1.x) * snapToNeighbor p2.x (p2.x - p1.x) +
          (p1.y - (p2.y - p1.y) / (p2.x - p1.x) * p1.x)
      ring
    · show snapToNeighbor p2.x (p2.x - p1.x) * ((p2.y - p1.y) / (p2.x - p1.x)) +
          (p1.y - (p2.y - p1.y) / (p2.x - p1.x) * p1.x) =
        (p2.y - p1.y) / (p2.x - p1.x) * snapToNeighbor p2.x (p2.x - p1.x) +
          (p1.y - (p2.y - p1.y) / (p2.x - p1.x) * p1.x)
      ring
  · intro hdx
    rw [if_neg (by simpa using hdx)]

/-- C10 witness: the line invariant applied at p1 = (0,0), p2 = (1,1). -/
theorem claim10_witness :
    (Vector2D.mk 1 1).subtract ⟨0, 0⟩ ≠ ⟨0, 0⟩ ∧
    ((((Vector2D.mk 1 1).subtract ⟨0, 0⟩).x ≠ 0 →
      (rayStep ⟨0, 0⟩ ⟨1, 1⟩).y =
        (((Vector2D.mk 1 1).subtract ⟨0, 0⟩).y / ((Vector2D.mk 1 1).subtract ⟨0, 0⟩).x) *
            (rayStep ⟨0, 0⟩ ⟨1, 1⟩).x +
          ((Vector2D.mk 0 0).y -
            (((Vector2D.mk 1 1).subtract ⟨0, 0⟩).y / ((Vector2D.mk 1 1).subtract ⟨0, 0⟩).x) *
              (Vector2D.mk 0 0).x)) ∧
     (((Vector2D.mk 1 1).subtract ⟨0, 0⟩).x = 0 → (rayStep ⟨0, 0⟩ ⟨1, 1⟩).x = (Vector2D.mk 1 1).x)) :=
  ⟨by simp only [Vector2D.subtract, ne_eq, Vector2D.mk.injEq]; norm_num,
   claim10_theorem ⟨0, 0⟩ ⟨1, 1⟩
     (by simp only [Vector2D.subtract, ne_eq, Vector2D.mk.injEq]; norm_num)⟩

end

noncomputable section

/-- C8 counterexample: brightness does not multiply the alpha component:
    scaling the color (1,1,1,1) by 2 leaves a = 1, not 2 x 1 = 2. -/
theorem claim8_counterexample :
    (Color.brightness ⟨1, 1, 1, 1⟩ 2).a = 1 ∧ ¬ ((Color.brightness ⟨1, 1, 1, 1⟩ 2).a = 2 * (1 : ℝ)) := by
  rw [Color.brightness]
  norm_num

/-- C8 as amended: brightness scaling multiplies the r, g and b components
    by the scalar, unclamped, while the alpha component is passed through
    unchanged. -/
theorem claim8_theorem (c : Color) (f : ℝ) :
    (c.brightness f).r = f * c.r ∧ (c.brightness f).g = f * c.g ∧
    (c.brightness f).b = f * c.b ∧ (c.brightness f).a = c.a :=
  ⟨rfl, rfl, rfl, rfl⟩

/-- C6: for a hit point lying exactly along the view direction at a
    nonnegative parameter t, the perpendicular depth dot(v, d) with
    v = hit - position and d = fromAngle(direction) equals the Euclidean
    distance from the position to the hit point. -/
theorem claim6_theorem (pos : Vector2D) (θ t : ℝ) (ht : 0 ≤ t) :
    ((pos.add ((Vector2D.fromAngle θ).scale t)).subtract pos).dot (Vector2D.fromAngle θ) =
      pos.distanceTo (pos.add ((Vector2D.fromAngle θ).scale t)) := by
  simp only [Vector2D.add, Vector2D.scale, Vector2D.subtract, Vector2D.dot,
    Vector2D.fromAngle, Vector2D.distanceTo, Vector2D.length]
  have hpy : Real.cos θ ^ 2 + Real.sin θ ^ 2 = 1 := Real.cos_sq_add_sin_sq θ
  have hsum : (pos.x + Real.cos θ * t - pos.x) * (pos.x + Real.cos θ * t - pos.x) +
      (pos.y + Real.sin θ * t - pos.y) * (pos.y + Real.sin θ * t - pos.y) = t ^ 2 := by
    nlinarith [hpy]
  rw [hsum, Real.sqrt_sq ht]
  nlinarith [hpy]

/-- C6 witness: the depth identity applied at position (0,0), direction 0
    and parameter t = 2. -/
theorem claim6_witness :
    (0 : ℝ) ≤ 2 ∧
    (((Vector2D.mk 0 0).add ((Vector2D.fromAngle 0).scale 2)).subtract ⟨0, 0⟩).dot (Vector2D.fromAngle 0) =
      (Vector2D.mk 0 0).distanceTo ((Vector2D.mk 0 0).add ((Vector2D.fromAngle 0).scale 2)) :=
  ⟨by norm_num, claim6_theorem ⟨0, 0⟩ 0 2 (by norm_num)⟩

/-- C7: a frame with only the forward intent set and deltaTime = 0.1
    (timestamps 100 ms apart, speed constant 2) moves the position by
    exactly fromAngle(direction) x 0.2, and a frame with forward and
    backward both set leaves the position unchanged whatever the other
    intents and timestamps are. -/
theorem claim7_theorem (player : Player) (t0 : ℝ) :
    (frame (t0 + 100) t0 true false false false player).position =
      player.position.add ((Vector2D.fromAngle player.direction).scale 0.2) ∧
    ∀ (tl tr : Bool) (ts pts : ℝ),
      (frame ts pts true true tl tr player).position = player.position := by
  constructor
  · rw [frame]
    simp only [if_true, if_false, Bool.false_eq_true, ite_false, ite_true]
    ext
    · simp only [Vector2D.add, Vector2D.scale, Vector2D.zero, Vector2D.fromAngle]
      rw [PLAYER_SPEED]
      ring_nf
    · simp only [Vector2D.add, Vector2D.scale, Vector2D.zero, Vector2D.fromAngle]
      rw [PLAYER_SPEED]
      ring_nf
  · intro tl tr ts pts
    rw [frame]
    simp only [if_true, if_false, ite_true]
    ext
    · simp only [Vector2D.add, Vector2D.subtract, Vector2D.scale, Vector2D.zero,
        Vector2D.fromAngle]
      ring
    · simp only [Vector2D.add, Vector2D.subtract, Vector2D.scale, Vector2D.zero,
        Vector2D.fromAngle]
      ring

/-- C5: at any loop state whose p1 lies strictly beyond the far clipping
    distance from the origin (squared comparison), with the current cell
    not an in-bounds wall, castRay stops and returns the current p2
    unchanged, for any amount of fuel. -/
theorem claim5_theorem (scene : Scene) (start p1 p2 : Vector2D) (fuel : ℕ)
    (hfar : FAR_CLIPPING_PLANE ^ 2 < start.sqrDistanceTo p1)
    (hnohit : ¬ (insideScene scene (hittingCell p1 p2) ∧
        sceneCell scene (hittingCell p1 p2) ≠ some none)) :
    castRayAux scene start fuel p1 p2 = p2 := by
  cases fuel with
  | zero => rfl
  | succ n =>
    rw [castRayAux_succ, if_neg]
    intro hlt
    rw [distanceTo_lt_iff start p1 FAR_CLIPPING_PLANE (by rw [FAR_CLIPPING_PLANE]; norm_num)] at hlt
    linarith

end

noncomputable section

/-- C5 witness: the miss case applied at a concrete out-of-range state:
    a 1 x 1 scene, origin (0,0), p1 = (11,0) (squared distance 121 > 100),
    p2 = (5.5,0); the hit test fails since cell (5,0) is outside the scene,
    and castRay returns p2 unchanged. -/
theorem claim5_witness :
    FAR_CLIPPING_PLANE ^ 2 < (Vector2D.mk 0 0).sqrDistanceTo ⟨11, 0⟩ ∧
    ¬ (insideScene [[some "red"]] (hittingCell ⟨11, 0⟩ ⟨5.5, 0⟩) ∧
        sceneCell [[some "red"]] (hittingCell ⟨11, 0⟩ ⟨5.5, 0⟩) ≠ some none) ∧
    castRayAux [[some "red"]] ⟨0, 0⟩ 7 ⟨11, 0⟩ ⟨5.5, 0⟩ = ⟨5.5, 0⟩ := by
  have hfar : FAR_CLIPPING_PLANE ^ 2 < (Vector2D.mk 0 0).sqrDistanceTo ⟨11, 0⟩ := by
    rw [FAR_CLIPPING_PLANE]
    simp only [Vector2D.sqrDistanceTo, Vector2D.sqrLength, Vector2D.subtract]
    norm_num
  have hc : hittingCell ⟨11, 0⟩ ⟨5.5, 0⟩ = ⟨5, 0⟩ := by
    rw [hittingCell]
    simp only [Vector2D.subtract]
    norm_num [jsSign, EPSILON, Int.floor_eq_iff]
  have hsize : (sceneSize [[some "red"]]).x = 1 := by
    rw [sceneSize]
    simp only [List.foldl, List.length]
    norm_num [numberMinValue]
  have hnohit : ¬ (insideScene [[some "red"]] (hittingCell ⟨11, 0⟩ ⟨5.5, 0⟩) ∧
      sceneCell [[some "red"]] (hittingCell ⟨11, 0⟩ ⟨5.5, 0⟩) ≠ some none) := by
    rw [hc, insideScene]
    rintro ⟨⟨_, hlt, _, _⟩, _⟩
    rw [hsize] at hlt
    norm_num at hlt
  exact ⟨hfar, hnohit, claim5_theorem [[some "red"]] ⟨0, 0⟩ ⟨11, 0⟩ ⟨5.5, 0⟩ 7 hfar hnohit⟩

end

noncomputable section

/-! Bounds lemmas for the cell accesses of castRay. -/

theorem distanceTo_self (a : Vector2D) : a.distanceTo a = 0 := by
  simp [Vector2D.distanceTo, Vector2D.length, Vector2D.subtract]

theorem foldl_max_le (W : ℝ) :
    ∀ (l : List (List Cell)) (a : ℝ), a ≤ W → (∀ row ∈ l, ((row.length : ℕ) : ℝ) ≤ W) →
      List.foldl (fun acc row => max acc ((row.length : ℕ) : ℝ)) a l ≤ W
  | [], a, ha, _ => ha
  | r :: t, a, ha, hrows => by
    apply foldl_max_le W t
    · exact max_le ha (hrows r (List.mem_cons_self r t))
    · intro row hrow
      exact hrows row (List.mem_cons_of_mem r hrow)

theorem le_foldl_max_nat : ∀ (l : List (List Cell)) (a : ℕ),
    a ≤ l.foldl (fun acc row => max acc row.length) a
  | [], _ => le_refl _
  | r :: t, a =>
    le_trans (le_max_left a r.length) (le_foldl_max_nat t (max a r.length))

theorem length_le_foldl_max : ∀ (l : List (List Cell)) (a : ℕ) (row : List Cell),
    row ∈ l → row.length ≤ l.foldl (fun acc row => max acc row.length) a
  | r :: t, a, row, hmem => by
    rcases List.mem_cons.mp hmem with hhead | htail
    · subst hhead
      exact le_trans (le_max_right a row.length) (le_foldl_max_nat t (max a row.length))
    · exact length_le_foldl_max t (max a r.length) row htail

theorem length_le_logicalWidth (scene : Scene) (row : List Cell) (hmem : row ∈ scene) :
    row.length ≤ logicalWidth scene :=
  length_le_foldl_max scene 0 row hmem

theorem sceneSize_x_le (scene : Scene) (W : ℕ) (hW : 1 ≤ W)
    (hrows : ∀ row ∈ scene, row.length ≤ W) :
    (sceneSize scene).x ≤ (W : ℝ) := by
  show List.foldl (fun acc row => max acc ((row.length : ℕ) : ℝ)) numberMinValue scene ≤ (W : ℝ)
  apply foldl_max_le
  · have h1 : (1 : ℝ) ≤ (W : ℝ) := by exact_mod_cast hW
    have h2 : (1 / 2 ^ 1074 : ℝ) ≤ 1 := by norm_num
    rw [numberMinValue]
    linarith
  · intro row hrow
    exact_mod_cast hrows row hrow

theorem jsIndex_eq_some_of {X : Type} (l : List X) (i : ℤ) (h0 : 0 ≤ i)
    (hlt : (i : ℝ) < ((l.length : ℕ) : ℝ)) :
    ∃ x, jsIndex l i = some x ∧ x ∈ l := by
  have hi : i.toNat < l.length := by
    have hz : i < (l.length : ℤ) := by exact_mod_cast hlt
    omega
  refine ⟨l.get ⟨i.toNat, hi⟩, ?_, List.get_mem l i.toNat hi⟩
  rw [jsIndex, if_pos h0]
  exact List.get?_eq_get hi

theorem hittingCell_floor_x (p1 p2 : Vector2D) :
    ((⌊(hittingCell p1 p2).x⌋ : ℤ) : ℝ) = (hittingCell p1 p2).x := by
  rw [hittingCell]
  simp [Int.floor_intCast]

theorem hittingCell_floor_y (p1 p2 : Vector2D) :
    ((⌊(hittingCell p1 p2).y⌋ : ℤ) : ℝ) = (hittingCell p1 p2).y := by
  rw [hittingCell]
  simp [Int.floor_intCast]

theorem castRayTests_mem (scene : Scene) (start : Vector2D) :
    ∀ (fuel : ℕ) (p1 p2 : Vector2D) (q : ℤ × ℤ), q ∈ castRayTests scene start fuel p1 p2 →
      0 ≤ ((q.1 : ℤ) : ℝ) ∧ ((q.1 : ℤ) : ℝ) < (sceneSize scene).x ∧
      0 ≤ ((q.2 : ℤ) : ℝ) ∧ ((q.2 : ℤ) : ℝ) < (sceneSize scene).y := by
  intro fuel
  induction fuel with
  | zero =>
    intro p1 p2 q hq
    simp [castRayTests] at hq
  | succ n ih =>
    intro p1 p2 q hq
    rw [castRayTests_succ] at hq
    split_ifs at hq with h1 h2 h3
    · rw [List.mem_singleton] at hq
      subst hq
      obtain ⟨ha, hb, hc2, hd2⟩ := h2
      rw [hittingCell_floor_x, hittingCell_floor_y]
      exact ⟨ha, hb, hc2, hd2⟩
    · rcases List.mem_cons.mp hq with hhead | htail
      · subst hhead
        obtain ⟨ha, hb, hc2, hd2⟩ := h2
        rw [hittingCell_floor_x, hittingCell_floor_y]
        exact ⟨ha, hb, hc2, hd2⟩
      · exact ih p2 (rayStep p1 p2) q htail
    · exact ih p2 (rayStep p1 p2) q hq
    · simp at hq

/-- C3 counterexample: in the ragged scene [[null,null],[null]] (logical
    width 2), castRay starting at (1.5,1.5) evaluates cell (1,1): a read at
    column index 1 into row 1, which has length 1 < 2 - a read past the end
    of a row shorter than the logical width. -/
theorem claim3_counterexample :
    ((1 : ℤ), (1 : ℤ)) ∈
      castRayTests [[none, none], [none]] ⟨1.5, 1.5⟩ 1 ⟨1.5, 1.5⟩ ⟨1.5, 1.5⟩ ∧
    jsIndex ([[none, none], [none]] : Scene) (1 : ℤ) = some ([none] : List Cell) ∧
    ¬ ((1 : ℤ) < (([none] : List Cell).length : ℤ)) ∧
    ([none] : List Cell).length < logicalWidth [[none, none], [none]] := by
  have hcell : hittingCell ⟨1.5, 1.5⟩ ⟨1.5, 1.5⟩ = ⟨1, 1⟩ := by
    rw [hittingCell]
    simp only [Vector2D.subtract]
    norm_num [jsSign, Int.floor_eq_iff]
  have hsize : sceneSize [[none, none], [none]] = ⟨2, 2⟩ := by
    rw [sceneSize]
    ext
    · simp only [List.foldl, List.length]
      norm_num [numberMinValue]
    · simp only [List.length]
      norm_num
  have hmem : ((1 : ℤ), (1 : ℤ)) ∈
      castRayTests [[none, none], [none]] ⟨1.5, 1.5⟩ 1 ⟨1.5, 1.5⟩ ⟨1.5, 1.5⟩ := by
    rw [castRayTests_succ]
    rw [if_pos (by rw [distanceTo_self, FAR_CLIPPING_PLANE]; norm_num)]
    rw [if_pos (by rw [insideScene, hcell, hsize]; norm_num)]
    rw [if_pos (by
          rw [hcell, sceneCell]
          norm_num [jsIndex, Int.floor_one]
          simp)]
    rw [hcell]
    norm_num
  refine ⟨hmem, by rw [jsIndex]; norm_num, by norm_num, ?_⟩
  rw [logicalWidth]
  norm_num

/-- C3 as amended: for rectangular scenes (all rows of one common positive
    length) every cell occupancy read of castRay lands inside its row:
    column indices are nonnegative and below the row length.  (The original
    claim over ragged scenes fails: the bound insideScene enforces is the
    logical width, not the length of the accessed row.) -/
theorem claim3_theorem (scene : Scene) (w : ℕ) (hw : 1 ≤ w)
    (hrect : ∀ row ∈ scene, row.length = w) (start : Vector2D) (fuel : ℕ) (p1 p2 : Vector2D)
    (q : ℤ × ℤ) (hq : q ∈ castRayTests scene start fuel p1 p2) :
    ∃ row, jsIndex scene q.2 = some row ∧ 0 ≤ q.1 ∧ q.1 < (row.length : ℤ) := by
  obtain ⟨h0x, hltx, h0y, hlty⟩ := castRayTests_mem scene start fuel p1 p2 q hq
  have h0y' : (0 : ℤ) ≤ q.2 := by exact_mod_cast h0y
  have hylt : ((q.2 : ℤ) : ℝ) < ((scene.length : ℕ) : ℝ) := hlty
  obtain ⟨row, hrow, hmem⟩ := jsIndex_eq_some_of scene q.2 h0y' hylt
  have hsx : (sceneSize scene).x ≤ (w : ℝ) := by
    apply sceneSize_x_le scene w hw
    intro r hr
    exact le_of_eq (hrect r hr)
  have hxw : ((q.1 : ℤ) : ℝ) < (w : ℝ) := lt_of_lt_of_le hltx hsx
  have hxw' : q.1 < (w : ℤ) := by exact_mod_cast hxw
  refine ⟨row, hrow, by exact_mod_cast h0x, ?_⟩
  rw [hrect row hmem]
  exact_mod_cast hxw'

/-- C3 witness: the amended in-row bound applied to the 1 x 1 scene
    [["red"]] and the ray starting and pointing at (0.5, 0.5), whose first
    tested cell is (0,0). -/
theorem claim3_witness :
    (1 ≤ 1 ∧ (∀ row ∈ ([[some "red"]] : Scene), row.length = 1) ∧
      ((0 : ℤ), (0 : ℤ)) ∈ castRayTests [[some "red"]] ⟨0.5, 0.5⟩ 1 ⟨0.5, 0.5⟩ ⟨0.5, 0.5⟩) ∧
    ∃ row, jsIndex ([[some "red"]] : Scene) (0 : ℤ) = some row ∧
      (0 : ℤ) ≤ 0 ∧ (0 : ℤ) < (row.length : ℤ) := by
  have hcell : hittingCell ⟨0.5, 0.5⟩ ⟨0.5, 0.5⟩ = ⟨0, 0⟩ := by
    rw [hittingCell]
    simp only [Vector2D.subtract]
    norm_num [jsSign, Int.floor_eq_iff]
  have hsize : sceneSize [[some "red"]] = ⟨1, 1⟩ := by
    rw [sceneSize]
    ext
    · simp only [List.foldl, List.length]
      norm_num [numberMinValue]
    · simp only [List.length]
      norm_num
  have hmem : ((0 : ℤ), (0 : ℤ)) ∈
      castRayTests [[some "red"]] ⟨0.5, 0.5⟩ 1 ⟨0.5, 0.5⟩ ⟨0.5, 0.5⟩ := by
    rw [castRayTests_succ]
    rw [if_pos (by rw [distanceTo_self, FAR_CLIPPING_PLANE]; norm_num)]
    rw [if_pos (by rw [insideScene, hcell, hsize]; norm_num)]
    rw [if_pos (by
          rw [hcell, sceneCell]
          norm_num [jsIndex, Int.floor_zero]
          simp)]
    rw [hcell]
    norm_num
  have hrect : ∀ row ∈ ([[some "red"]] : Scene), row.length = 1 := by
    intro row hrow
    rw [List.mem_singleton] at hrow
    subst hrow
    rfl
  exact ⟨⟨le_refl 1, hrect, hmem⟩,
    claim3_theorem [[some "red"]] 1 (le_refl 1) hrect ⟨0.5, 0.5⟩ 1 ⟨0.5, 0.5⟩ ⟨0.5, 0.5⟩
      ((0 : ℤ), (0 : ℤ)) hmem⟩

end

noncomputable section

/-- C4 counterexample: in the scene [[]] (one empty row, logical width 0)
    the sceneSize fold is seeded with the positive Number.MIN_VALUE, so
    insideScene accepts the cell (0,0) and castRay starting at (0.5,0.5)
    evaluates scene[0][0], a column outside [0, width) = [0, 0). -/
theorem claim4_counterexample :
    ((0 : ℤ), (0 : ℤ)) ∈ castRayTests [[]] ⟨0.5, 0.5⟩ 1 ⟨0.5, 0.5⟩ ⟨0.5, 0.5⟩ ∧
    logicalWidth ([[]] : Scene) = 0 ∧
    ¬ ((0 : ℤ) < (logicalWidth ([[]] : Scene) : ℤ)) := by
  have hcell : hittingCell ⟨0.5, 0.5⟩ ⟨0.5, 0.5⟩ = ⟨0, 0⟩ := by
    rw [hittingCell]
    simp only [Vector2D.subtract]
    norm_num [jsSign, Int.floor_eq_iff]
  have hx : (0 : ℝ) < (sceneSize ([[]] : Scene)).x := by
    rw [sceneSize]
    simp only [List.foldl]
    apply lt_max_of_lt_left
    rw [numberMinValue]
    norm_num
  have hy : (0 : ℝ) < (sceneSize ([[]] : Scene)).y := by
    rw [sceneSize]
    simp only [List.length]
    norm_num
  have hmem : ((0 : ℤ), (0 : ℤ)) ∈ castRayTests [[]] ⟨0.5, 0.5⟩ 1 ⟨0.5, 0.5⟩ ⟨0.5, 0.5⟩ := by
    rw [castRayTests_succ]
    rw [if_pos (by rw [distanceTo_self, FAR_CLIPPING_PLANE]; norm_num)]
    rw [if_pos (by
          rw [insideScene, hcell]
          exact ⟨by norm_num, by simpa using hx, by norm_num, by simpa using hy⟩)]
    rw [if_pos (by
          rw [hcell, sceneCell]
          norm_num [jsIndex, Int.floor_zero]
          simp)]
    rw [hcell]
    norm_num
  exact ⟨hmem, by decide, by decide⟩

/-- C4 as amended: for every scene with at least one nonempty row (logical
    width at least 1), every occupancy test of castRay is at a cell with
    row in [0, height) and column in [0, logicalWidth); and whenever the
    current cell is out of bounds the ray continues with the next step
    instead of hitting.  (The unrestricted claim fails for scenes of
    logical width 0, where the Number.MIN_VALUE seed of the sceneSize fold
    lets column 0 pass the bounds check.) -/
theorem claim4_theorem (scene : Scene) (hW : 1 ≤ logicalWidth scene) :
    (∀ (start : Vector2D) (fuel : ℕ) (p1 p2 : Vector2D) (q : ℤ × ℤ),
        q ∈ castRayTests scene start fuel p1 p2 →
        0 ≤ q.1 ∧ q.1 < (logicalWidth scene : ℤ) ∧ 0 ≤ q.2 ∧ q.2 < (scene.length : ℤ)) ∧
    (∀ (start p1 p2 : Vector2D) (n : ℕ),
        start.distanceTo p1 < FAR_CLIPPING_PLANE →
        ¬ insideScene scene (hittingCell p1 p2) →
        castRayAux scene start (n + 1) p1 p2 = castRayAux scene start n p2 (rayStep p1 p2)) := by
  constructor
  · intro start fuel p1 p2 q hq
    obtain ⟨h0x, hltx, h0y, hlty⟩ := castRayTests_mem scene start fuel p1 p2 q hq
    have hsx : (sceneSize scene).x ≤ ((logicalWidth scene : ℕ) : ℝ) := by
      apply sceneSize_x_le scene (logicalWidth scene) hW
      intro r hr
      exact length_le_logicalWidth scene r hr
    refine ⟨by exact_mod_cast h0x, ?_, by exact_mod_cast h0y, ?_⟩
    · have hx : ((q.1 : ℤ) : ℝ) < ((logicalWidth scene : ℕ) : ℝ) := lt_of_lt_of_le hltx hsx
      exact_mod_cast hx
    · have hy : ((q.2 : ℤ) : ℝ) < ((scene.length : ℕ) : ℝ) := hlty
      exact_mod_cast hy
  · intro start p1 p2 n hdist hnin
    rw [castRayAux_succ, if_pos hdist, if_neg]
    intro hc
    exact hnin hc.1

/-- C4 witness: the bounds and continuation properties applied to the
    1 x 1 scene [["red"]], whose logical width is 1. -/
theorem claim4_witness :
    1 ≤ logicalWidth ([[some "red"]] : Scene) ∧
    ((∀ (start : Vector2D) (fuel : ℕ) (p1 p2 : Vector2D) (q : ℤ × ℤ),
        q ∈ castRayTests [[some "red"]] start fuel p1 p2 →
        0 ≤ q.1 ∧ q.1 < (logicalWidth ([[some "red"]] : Scene) : ℤ) ∧
          0 ≤ q.2 ∧ q.2 < ((List.length ([[some "red"]] : Scene) : ℕ) : ℤ)) ∧
     (∀ (start p1 p2 : Vector2D) (n : ℕ),
        start.distanceTo p1 < FAR_CLIPPING_PLANE →
        ¬ insideScene [[some "red"]] (hittingCell p1 p2) →
        castRayAux [[some "red"]] start (n + 1) p1 p2 =
          castRayAux [[some "red"]] start n p2 (rayStep p1 p2))) :=
  ⟨le_refl 1, claim4_theorem [[some "red"]] (le_refl 1)⟩

end

noncomputable section

/-! Evaluation of the startup scene and the centre-column ray of C1. -/

theorem sqrt2_facts :
    Real.sqrt 2 * Real.sqrt 2 = 2 ∧ (0.7 : ℝ) < Real.sqrt 2 / 2 ∧ Real.sqrt 2 / 2 < 0.71 := by
  have h2 : Real.sqrt 2 * Real.sqrt 2 = 2 := Real.mul_self_sqrt (by norm_num)
  have hn : (0 : ℝ) ≤ Real.sqrt 2 := Real.sqrt_nonneg 2
  exact ⟨h2, by nlinarith, by nlinarith⟩

theorem sceneSize_scene1 : sceneSize scene1 = ⟨8, 7⟩ := by
  rw [sceneSize, scene1]
  ext
  · simp only [List.foldl, List.length]
    norm_num [numberMinValue]
  · simp only [List.length]
    norm_num

theorem c1_player_pos : player1.position = ⟨5.04, 4.41⟩ := by
  show (sceneSize scene1).multiply ⟨0.63, 0.63⟩ = ⟨5.04, 4.41⟩
  rw [sceneSize_scene1, Vector2D.multiply]
  ext <;> norm_num

theorem c1_from_angle :
    Vector2D.fromAngle player1.direction = ⟨-(Real.sqrt 2 / 2), -(Real.sqrt 2 / 2)⟩ := by
  show Vector2D.fromAngle (Real.pi * 1.25) = ⟨-(Real.sqrt 2 / 2), -(Real.sqrt 2 / 2)⟩
  rw [Vector2D.fromAngle, show Real.pi * 1.25 = Real.pi + Real.pi / 4 from by ring]
  rw [Real.cos_add, Real.sin_add, Real.cos_pi, Real.sin_pi, Real.cos_pi_div_four,
    Real.sin_pi_div_four]
  ext <;> norm_num

theorem c1_target : target1 = ⟨5.04 - Real.sqrt 2 / 2, 4.41 - Real.sqrt 2 / 2⟩ := by
  rw [target1, c1_player_pos, c1_from_angle, NEAR_CLIPPING_PLANE, Vector2D.scale, Vector2D.add]
  ext <;> norm_num <;> ring

theorem c1_cell1 :
    hittingCell ⟨5.04, 4.41⟩ ⟨5.04 - Real.sqrt 2 / 2, 4.41 - Real.sqrt 2 / 2⟩ = ⟨4, 3⟩ := by
  obtain ⟨h2, hs1, hs2⟩ := sqrt2_facts
  rw [hittingCell]
  simp only [Vector2D.subtract]
  rw [show (5.04 - Real.sqrt 2 / 2 - 5.04 : ℝ) = -(Real.sqrt 2 / 2) from by ring,
      show (4.41 - Real.sqrt 2 / 2 - 4.41 : ℝ) = -(Real.sqrt 2 / 2) from by ring]
  rw [jsSign, if_neg (by intro h; nlinarith : ¬ (0 : ℝ) < -(Real.sqrt 2 / 2)),
      if_pos (by nlinarith : -(Real.sqrt 2 / 2) < (0 : ℝ))]
  have hfx : ⌊(5.04 - Real.sqrt 2 / 2 + -1 * EPSILON : ℝ)⌋ = 4 := by
    rw [Int.floor_eq_iff]
    norm_num [EPSILON]
    constructor <;> nlinarith
  have hfy : ⌊(4.41 - Real.sqrt 2 / 2 + -1 * EPSILON : ℝ)⌋ = 3 := by
    rw [Int.floor_eq_iff]
    norm_num [EPSILON]
    constructor <;> nlinarith
  rw [hfx, hfy]
  ext <;> norm_num

theorem c1_step1 :
    rayStep ⟨5.04, 4.41⟩ ⟨5.04 - Real.sqrt 2 / 2, 4.41 - Real.sqrt 2 / 2⟩ = ⟨4, 3.37⟩ := by
  obtain ⟨h2, hs1, hs2⟩ := sqrt2_facts
  have hsnapx : snapToNeighbor (5.04 - Real.sqrt 2 / 2) (5.04 - Real.sqrt 2 / 2 - 5.04) = 4 := by
    rw [show (5.04 - Real.sqrt 2 / 2 - 5.04 : ℝ) = -(Real.sqrt 2 / 2) from by ring]
    rw [snapToNeighbor, if_neg (by intro h; nlinarith : ¬ (0 : ℝ) < -(Real.sqrt 2 / 2)),
        if_pos (by nlinarith : -(Real.sqrt 2 / 2) < (0 : ℝ))]
    rw [jsSign, if_neg (by intro h; nlinarith : ¬ (0 : ℝ) < -(Real.sqrt 2 / 2)),
        if_pos (by nlinarith : -(Real.sqrt 2 / 2) < (0 : ℝ))]
    have hf : ⌊(5.04 - Real.sqrt 2 / 2 + -1 * EPSILON : ℝ)⌋ = 4 := by
      rw [Int.floor_eq_iff]
      norm_num [EPSILON]
      constructor <;> nlinarith
    rw [hf]
    norm_num
  have hsnapy : snapToNeighbor (4.41 - Real.sqrt 2 / 2) (4.41 - Real.sqrt 2 / 2 - 4.41) = 3 := by
    rw [show (4.41 - Real.sqrt 2 / 2 - 4.41 : ℝ) = -(Real.sqrt 2 / 2) from by ring]
    rw [snapToNeighbor, if_neg (by intro h; nlinarith : ¬ (0 : ℝ) < -(Real.sqrt 2 / 2)),
        if_pos (by nlinarith : -(Real.sqrt 2 / 2) < (0 : ℝ))]
    rw [jsSign, if_neg (by intro h; nlinarith : ¬ (0 : ℝ) < -(Real.sqrt 2 / 2)),
        if_pos (by nlinarith : -(Real.sqrt 2 / 2) < (0 : ℝ))]
    have hf : ⌊(4.41 - Real.sqrt 2 / 2 + -1 * EPSILON : ℝ)⌋ = 3 := by
      rw [Int.floor_eq_iff]
      norm_num [EPSILON]
      constructor <;> nlinarith
    rw [hf]
    norm_num
  rw [rayStep]
  simp only [Vector2D.subtract, hsnapx, hsnapy]
  split_ifs with h1 h2a h3
  · exfalso
    rw [distanceTo_lt_distanceTo_iff] at h3
    simp only [Vector2D.sqrDistanceTo, Vector2D.sqrLength, Vector2D.subtract] at h3
    have hk : (4.41 - Real.sqrt 2 / 2 - 4.41) / (5.04 - Real.sqrt 2 / 2 - 5.04) = 1 := by
      rw [show (4.41 - Real.sqrt 2 / 2 - 4.41 : ℝ) = -(Real.sqrt 2 / 2) from by ring,
          show (5.04 - Real.sqrt 2 / 2 - 5.04 : ℝ) = -(Real.sqrt 2 / 2) from by ring]
      rw [div_self (by intro h; nlinarith : -(Real.sqrt 2 / 2) ≠ (0 : ℝ))]
    rw [hk] at h3
    norm_num at h3
    nlinarith
  · have hk : (4.41 - Real.sqrt 2 / 2 - 4.41) / (5.04 - Real.sqrt 2 / 2 - 5.04) = 1 := by
      rw [show (4.41 - Real.sqrt 2 / 2 - 4.41 : ℝ) = -(Real.sqrt 2 / 2) from by ring,
          show (5.04 - Real.sqrt 2 / 2 - 5.04 : ℝ) = -(Real.sqrt 2 / 2) from by ring]
      rw [div_self (by intro h; nlinarith : -(Real.sqrt 2 / 2) ≠ (0 : ℝ))]
    rw [hk]
    ext <;> norm_num
  · exfalso
    apply h2a
    rw [show (4.41 - Real.sqrt 2 / 2 - 4.41 : ℝ) = -(Real.sqrt 2 / 2) from by ring,
        show (5.04 - Real.sqrt 2 / 2 - 5.04 : ℝ) = -(Real.sqrt 2 / 2) from by ring]
    rw [div_self (by intro h; nlinarith : -(Real.sqrt 2 / 2) ≠ (0 : ℝ))]
    norm_num
  · exfalso
    apply h1
    intro h
    nlinarith [h]

theorem c1_cell2 :
    hittingCell ⟨5.04 - Real.sqrt 2 / 2, 4.41 - Real.sqrt 2 / 2⟩ ⟨4, 3.37⟩ = ⟨3, 3⟩ := by
  obtain ⟨h2, hs1, hs2⟩ := sqrt2_facts
  rw [hittingCell]
  simp only [Vector2D.subtract]
  rw [show (4 - (5.04 - Real.sqrt 2 / 2) : ℝ) = Real.sqrt 2 / 2 - 1.04 from by ring,
      show (3.37 - (4.41 - Real.sqrt 2 / 2) : ℝ) = Real.sqrt 2 / 2 - 1.04 from by ring]
  rw [jsSign, if_neg (by intro h; nlinarith : ¬ (0 : ℝ) < Real.sqrt 2 / 2 - 1.04),
      if_pos (by nlinarith : Real.sqrt 2 / 2 - 1.04 < (0 : ℝ))]
  have hfx : ⌊(4 + -1 * EPSILON : ℝ)⌋ = 3 := by
    rw [Int.floor_eq_iff]
    norm_num [EPSILON]
  have hfy : ⌊(3.37 + -1 * EPSILON : ℝ)⌋ = 3 := by
    rw [Int.floor_eq_iff]
    norm_num [EPSILON]
  rw [hfx, hfy]
  ext <;> norm_num

theorem c1_step2 :
    rayStep ⟨5.04 - Real.sqrt 2 / 2, 4.41 - Real.sqrt 2 / 2⟩ ⟨4, 3.37⟩ = ⟨3.63, 3⟩ := by
  obtain ⟨h2, hs1, hs2⟩ := sqrt2_facts
  have hneg : (Real.sqrt 2 / 2 - 1.04 : ℝ) < 0 := by nlinarith
  have hne : (Real.sqrt 2 / 2 - 1.04 : ℝ) ≠ 0 := by intro h; nlinarith
  have hsnapx : snapToNeighbor (4 : ℝ) (4 - (5.04 - Real.sqrt 2 / 2)) = 3 := by
    rw [show (4 - (5.04 - Real.sqrt 2 / 2) : ℝ) = Real.sqrt 2 / 2 - 1.04 from by ring]
    rw [snapToNeighbor, if_neg (by intro h; nlinarith : ¬ (0 : ℝ) < Real.sqrt 2 / 2 - 1.04),
        if_pos hneg]
    rw [jsSign, if_neg (by intro h; nlinarith : ¬ (0 : ℝ) < Real.sqrt 2 / 2 - 1.04), if_pos hneg]
    have hf : ⌊(4 + -1 * EPSILON : ℝ)⌋ = 3 := by
      rw [Int.floor_eq_iff]
      norm_num [EPSILON]
    rw [hf]
    norm_num
  have hsnapy : snapToNeighbor (3.37 : ℝ) (3.37 - (4.41 - Real.sqrt 2 / 2)) = 3 := by
    rw [show (3.37 - (4.41 - Real.sqrt 2 / 2) : ℝ) = Real.sqrt 2 / 2 - 1.04 from by ring]
    rw [snapToNeighbor, if_neg (by intro h; nlinarith : ¬ (0 : ℝ) < Real.sqrt 2 / 2 - 1.04),
        if_pos hneg]
    rw [jsSign, if_neg (by intro h; nlinarith : ¬ (0 : ℝ) < Real.sqrt 2 / 2 - 1.04), if_pos hneg]
    have hf : ⌊(3.37 + -1 * EPSILON : ℝ)⌋ = 3 := by
      rw [Int.floor_eq_iff]
      norm_num [EPSILON]
    rw [hf]
    norm_num
  have hk : (3.37 - (4.41 - Real.sqrt 2 / 2)) / (4 - (5.04 - Real.sqrt 2 / 2)) = (1 : ℝ) := by
    rw [show (4 - (5.04 - Real.sqrt 2 / 2) : ℝ) = Real.sqrt 2 / 2 - 1.04 from by ring,
        show (3.37 - (4.41 - Real.sqrt 2 / 2) : ℝ) = Real.sqrt 2 / 2 - 1.04 from by ring,
        div_self hne]
  rw [rayStep]
  simp only [Vector2D.subtract, hsnapx, hsnapy, hk]
  split_ifs with h1 h2a h3
  · ext <;> ring_nf
  · exfalso
    apply h3
    rw [distanceTo_lt_distanceTo_iff]
    simp only [Vector2D.sqrDistanceTo, Vector2D.sqrLength, Vector2D.subtract]
    ring_nf
    norm_num
  · exfalso
    apply h2a
    norm_num
  · exfalso
    apply h1
    intro h
    nlinarith [h]

theorem c1_cell3 : hittingCell ⟨4, 3.37⟩ ⟨3.63, 3⟩ = ⟨3, 2⟩ := by
  rw [hittingCell]
  simp only [Vector2D.subtract]
  norm_num [jsSign, EPSILON, Int.floor_eq_iff]

theorem c1_cell_hit : hittingCell ⟨5.04, 4.41⟩ ⟨3.63, 3⟩ = ⟨3, 2⟩ := by
  rw [hittingCell]
  simp only [Vector2D.subtract]
  norm_num [jsSign, EPSILON, Int.floor_eq_iff]

theorem c1_scene_43 : sceneCell scene1 ⟨4, 3⟩ = some none := by
  rw [sceneCell]
  norm_num [jsIndex, scene1]
  rfl

theorem c1_scene_33 : sceneCell scene1 ⟨3, 3⟩ = some none := by
  rw [sceneCell]
  norm_num [jsIndex, scene1]
  rfl

theorem c1_scene_32 : sceneCell scene1 ⟨3, 2⟩ = some (some "blue") := by
  rw [sceneCell]
  norm_num [jsIndex, scene1]
  rfl

theorem c1_inside_43 : insideScene scene1 ⟨4, 3⟩ := by
  rw [insideScene, sceneSize_scene1]
  norm_num

theorem c1_inside_33 : insideScene scene1 ⟨3, 3⟩ := by
  rw [insideScene, sceneSize_scene1]
  norm_num

theorem c1_inside_32 : insideScene scene1 ⟨3, 2⟩ := by
  rw [insideScene, sceneSize_scene1]
  norm_num

theorem c1_run (n : ℕ) : castRay scene1 player1.position target1 (n + 3) = ⟨3.63, 3⟩ := by
  obtain ⟨h2, hs1, hs2⟩ := sqrt2_facts
  have cond1 : (Vector2D.mk 5.04 4.41).distanceTo ⟨5.04, 4.41⟩ < FAR_CLIPPING_PLANE := by
    rw [distanceTo_self, FAR_CLIPPING_PLANE]
    norm_num
  have cond2 : (Vector2D.mk 5.04 4.41).distanceTo
      ⟨5.04 - Real.sqrt 2 / 2, 4.41 - Real.sqrt 2 / 2⟩ < FAR_CLIPPING_PLANE := by
    rw [distanceTo_lt_iff _ _ _ (by rw [FAR_CLIPPING_PLANE]; norm_num)]
    simp only [Vector2D.sqrDistanceTo, Vector2D.sqrLength, Vector2D.subtract]
    rw [FAR_CLIPPING_PLANE]
    nlinarith
  have cond3 : (Vector2D.mk 5.04 4.41).distanceTo ⟨4, 3.37⟩ < FAR_CLIPPING_PLANE := by
    rw [distanceTo_lt_iff _ _ _ (by rw [FAR_CLIPPING_PLANE]; norm_num)]
    simp only [Vector2D.sqrDistanceTo, Vector2D.sqrLength, Vector2D.subtract]
    rw [FAR_CLIPPING_PLANE]
    norm_num
  have miss1 : ¬ (insideScene scene1
        (hittingCell ⟨5.04, 4.41⟩ ⟨5.04 - Real.sqrt 2 / 2, 4.41 - Real.sqrt 2 / 2⟩) ∧
      sceneCell scene1
          (hittingCell ⟨5.04, 4.41⟩ ⟨5.04 - Real.sqrt 2 / 2, 4.41 - Real.sqrt 2 / 2⟩) ≠
        some none) := by
    rw [c1_cell1]
    rintro ⟨_, hne⟩
    exact hne c1_scene_43
  have miss2 : ¬ (insideScene scene1
        (hittingCell ⟨5.04 - Real.sqrt 2 / 2, 4.41 - Real.sqrt 2 / 2⟩ ⟨4, 3.37⟩) ∧
      sceneCell scene1
          (hittingCell ⟨5.04 - Real.sqrt 2 / 2, 4.41 - Real.sqrt 2 / 2⟩ ⟨4, 3.37⟩) ≠
        some none) := by
    rw [c1_cell2]
    rintro ⟨_, hne⟩
    exact hne c1_scene_33
  have hit3 : insideScene scene1 (hittingCell ⟨4, 3.37⟩ ⟨3.63, 3⟩) ∧
      sceneCell scene1 (hittingCell ⟨4, 3.37⟩ ⟨3.63, 3⟩) ≠ some none := by
    rw [c1_cell3]
    exact ⟨c1_inside_32, by rw [c1_scene_32]; simp⟩
  rw [castRay, c1_player_pos, c1_target]
  rw [show n + 3 = (n + 2) + 1 from rfl, castRayAux_succ, if_pos cond1, if_neg miss1, c1_step1]
  rw [show n + 2 = (n + 1) + 1 from rfl, castRayAux_succ, if_pos cond2, if_neg miss2, c1_step2]
  rw [castRayAux_succ, if_pos cond3, if_pos hit3]

end

noncomputable section

/-- C1 counterexample: casting from the startup position (5.04, 4.41)
    toward the near-plane point along the exact view direction 5*pi/4
    returns the point (3.63, 3), which does not lie inside cell
    (row 2, col 1): its x coordinate is not in [1, 2), and the
    direction-biased cell determination gives cell (3, 2), not (1, 2). -/
theorem claim1_counterexample :
    castRay scene1 player1.position target1 10 = ⟨3.63, 3⟩ ∧
    ¬ ((1 ≤ (3.63 : ℝ) ∧ (3.63 : ℝ) < 2) ∧ (2 ≤ (3 : ℝ) ∧ (3 : ℝ) < 3)) ∧
    hittingCell player1.position ⟨3.63, 3⟩ ≠ ⟨1, 2⟩ := by
  refine ⟨by simpa using c1_run 7, by norm_num, ?_⟩
  rw [c1_player_pos, c1_cell_hit]
  simp only [ne_eq, Vector2D.mk.injEq]
  norm_num

/-- C1 as amended: casting from the startup viewpoint (5.04, 4.41) toward
    the point one near-clip length along the exact view direction 5*pi/4
    terminates (the result is the same for every fuel of at least 3) and
    returns the hit point (3.63, 3), which lies inside cell (row 2, col 3)
    (the blue wall) under the direction-biased cell determination, at
    distance from the origin not exceeding the far-clip distance. -/
theorem claim1_theorem (n : ℕ) :
    castRay scene1 player1.position target1 (n + 3) = ⟨3.63, 3⟩ ∧
    hittingCell player1.position ⟨3.63, 3⟩ = ⟨3, 2⟩ ∧
    insideScene scene1 ⟨3, 2⟩ ∧
    sceneCell scene1 ⟨3, 2⟩ = some (some "blue") ∧
    player1.position.distanceTo ⟨3.63, 3⟩ ≤ FAR_CLIPPING_PLANE := by
  refine ⟨c1_run n, by rw [c1_player_pos]; exact c1_cell_hit, c1_inside_32, c1_scene_32, ?_⟩
  have hlt : player1.position.distanceTo ⟨3.63, 3⟩ < FAR_CLIPPING_PLANE := by
    rw [c1_player_pos, distanceTo_lt_iff _ _ _ (by rw [FAR_CLIPPING_PLANE]; norm_num)]
    simp only [Vector2D.sqrDistanceTo, Vector2D.sqrLength, Vector2D.subtract]
    rw [FAR_CLIPPING_PLANE]
    norm_num
  exact le_of_lt hlt

end
